import Mathlib

/-!
Verification of makross: the `fault` error middleware and the request-log field resolver

Part 1 embeds `fault.ErrorHandler` (src/fault/error.go).  The handler is
stateful Go code driving five collaborators (`c.Next`, `logf`, `errorf[0]`,
`c.HandleError`, `c.Abort`); it is embedded by explicit state passing over a
world that carries the mutable state and a ghost trace of the calls the
handler itself performs.

Part 2 models the pieces of the `makross` and `logger` packages whose code is
not part of the sources at hand (`Context.HandleError`, `Context.Abort`, the
handler chain behind `Context.Next`, the log-template compiler and the field
resolver) from the specification.
-/

namespace fault

/-- A non-nil Go `error` value as the handler can observe it: the text of
`Error()` and, when the value implements `makross.HTTPError`, the result of
`StatusCode()`.  A nilable `error` is an `Option GoError`. -/
structure GoError where
  message : String
  statusCode : Option Int
deriving DecidableEq, Repr

/-- One call performed by the handler. -/
inductive Event where
  /-- The call `c.Next()`. -/
  | next : Event
  /-- The call `logf(format, args...)`. -/
  | logf (format : String) (args : List GoError) : Event
  /-- The call `errorf[i](c, err)`. -/
  | errorf (i : Nat) (err : GoError) : Event
  /-- The call `c.HandleError(err)`; `err` may be nil. -/
  | handleError (err : Option GoError) : Event
  /-- The call `c.Abort()`. -/
  | abort : Event
deriving DecidableEq, Repr

/-- The mutable state `σ` reachable from the handler (the context `c`, its
response, the log sink) together with the calls made so far. -/
structure World (σ : Type) where
  state : σ
  trace : List Event

/-- The methods of `*makross.Context` that the handler calls.  They are code of
the `makross` package and are taken as parameters. -/
structure Context (σ : Type) where
  /-- The method `c.Next()`: runs the downstream handlers, returns their error or nil. -/
  Next : σ → Option GoError × σ
  /-- The method `c.HandleError(err)`: writes the error response. -/
  HandleError : Option GoError → σ → σ
  /-- The method `c.Abort()`: stops the handler chain. -/
  Abort : σ → σ

/-- The type `LogFunc`, `func(format string, a ...interface{})`; the handler
only ever passes it an error as argument. -/
abbrev LogFunc (σ : Type) := String → List GoError → σ → σ

/-- The type `ConvertErrorFunc`, `func(c *makross.Context, err error) error`: it is
handed the context and may change it; the error it returns may be nil. -/
abbrev ConvertErrorFunc (σ : Type) := σ → GoError → Option GoError × σ

/-- The type `makross.Handler`, `func(c *makross.Context) error`. -/
abbrev Handler (σ : Type) := Context σ → World σ → Option GoError × World σ

/-- Performs `c.Next()` and records the call. -/
def callNext {σ : Type} (c : Context σ) (w : World σ) : Option GoError × World σ :=
  ((c.Next w.state).1, ⟨(c.Next w.state).2, w.trace ++ [Event.next]⟩)

/-- Performs `logf(format, args...)` and records the call. -/
def callLogf {σ : Type} (logf : LogFunc σ) (format : String) (args : List GoError)
    (w : World σ) : World σ :=
  ⟨logf format args w.state, w.trace ++ [Event.logf format args]⟩

/-- Performs `errorf[i](c, err)` and records the call. -/
def callErrorf {σ : Type} (i : Nat) (f : ConvertErrorFunc σ) (err : GoError)
    (w : World σ) : Option GoError × World σ :=
  ((f w.state err).1, ⟨(f w.state err).2, w.trace ++ [Event.errorf i err]⟩)

/-- Performs `c.HandleError(err)` and records the call. -/
def callHandleError {σ : Type} (c : Context σ) (err : Option GoError)
    (w : World σ) : World σ :=
  ⟨c.HandleError err w.state, w.trace ++ [Event.handleError err]⟩

/-- Performs `c.Abort()` and records the call. -/
def callAbort {σ : Type} (c : Context σ) (w : World σ) : World σ :=
  ⟨c.Abort w.state, w.trace ++ [Event.abort]⟩

/-- The function `fault.ErrorHandler(logf, errorf...)` (error.go 29-49).  A nil `logf` is
`none`; `errorf` is the variadic slice of conversion functions. -/
def ErrorHandler {σ : Type} (logf : Option (LogFunc σ)) (errorf : List (ConvertErrorFunc σ)) :
    Handler σ :=
  fun c w =>
    -- err := c.Next()
    let r₀ := callNext c w
    match r₀.1 with
    -- if err == nil { return nil }
    | none => (none, r₀.2)
    | some e =>
      -- if logf != nil { logf("%v", err) }
      let w₁ := match logf with
        | some f => callLogf f "%v" [e] r₀.2
        | none => r₀.2
      -- if len(errorf) > 0 { err = errorf[0](c, err) }
      let r := if h : 0 < errorf.length then callErrorf 0 (errorf.get ⟨0, h⟩) e w₁
        else (some e, w₁)
      -- c.HandleError(err); c.Abort(); return nil
      (none, callAbort c (callHandleError c r.1 r.2))

/-- The events a run appended to the trace it started from. -/
def newEvents {σ : Type} (before after : World σ) : List Event :=
  after.trace.drop before.trace.length

/-- Is the event a call of the log function? -/
def Event.isLogf : Event → Bool
  | Event.logf _ _ => true
  | _ => false

/-- Is the event a call of a conversion function? -/
def Event.isErrorf : Event → Bool
  | Event.errorf _ _ => true
  | _ => false

/-- Is the event a call of `c.HandleError`? -/
def Event.isHandleError : Event → Bool
  | Event.handleError _ => true
  | _ => false

/-- Is the event a call of `c.Abort`? -/
def Event.isAbort : Event → Bool
  | Event.abort => true
  | _ => false

/-- A context whose state is a journal: every collaborator appends one line
saying what it did.  `result` is what `c.Next()` returns. -/
def journalContext (result : Option GoError) : Context (List String) where
  Next := fun s => (result, s ++ ["next"])
  HandleError := fun err s => s ++ ["handle " ++ err.elim "<nil>" GoError.message]
  Abort := fun s => s ++ ["abort"]

/-- A log function writing its format and arguments to the journal. -/
def journalLogf : LogFunc (List String) :=
  fun format args s => s ++ ["log " ++ format ++ " " ++ ", ".intercalate (args.map GoError.message)]

/-- A conversion function that marks the message with `tag`, gives the error
status 400 and notes its call in the journal. -/
def journalErrorf (tag : String) : ConvertErrorFunc (List String) :=
  fun s e => (some ⟨tag ++ e.message, some 400⟩, s ++ ["convert " ++ tag])

/-- An error that does not implement `makross.HTTPError`. -/
def plainError : GoError := ⟨"boom", none⟩

/-- An error that implements `makross.HTTPError` with status 404. -/
def notFound : GoError := ⟨"not found", some 404⟩

/-- The world before the handler runs: an empty journal, no calls yet. -/
def freshWorld : World (List String) := ⟨[], []⟩

end fault

namespace makross

open fault

/-- The constant `http.StatusInternalServerError`. -/
def StatusInternalServerError : Int := 500

/-- Modelled from the spec: the response of a request as `Context.HandleError`
leaves it; the `makross` package is not among the sources.  Spec 7: a chain
error "becomes an HTTP response whose status matches the error's declared
status (or 500 by default) and whose body is the error's message". -/
structure Response where
  status : Int
  body : String
deriving DecidableEq, Repr

/-- Modelled from the spec: the state behind a `*makross.Context` that
`HandleError` and `Abort` act on (spec 6): the response, and the signal "to
stop further handler execution". -/
structure RequestState where
  response : Response
  aborted : Bool
deriving DecidableEq, Repr

/-- Modelled from the spec: the Classify step of spec 4.4, absent from the
sources: "does this error expose a status code?  if so use it, else default to
500 (internal server error)". -/
def classify (e : GoError) : Int :=
  match e.statusCode with
  | some code => code
  | none => StatusInternalServerError

/-- Modelled from the spec: `Context.HandleError`, absent from the sources.
Spec 4.4, Respond: "write the error's message as the response body with the
classified status code".  The spec speaks of errors only; on a nil error
value the state is left as it is. -/
def HandleError : Option GoError → RequestState → RequestState
  | some e, s => { s with response := ⟨classify e, e.message⟩ }
  | none, s => s

/-- Modelled from the spec: `Context.Abort`, absent from the sources.  Spec 6:
"an `Abort()` signal to stop further handler execution". -/
def Abort (s : RequestState) : RequestState :=
  { s with aborted := true }

/-- The context handed to a handler: `HandleError` and `Abort` as modelled
above, `Next` given by the downstream handlers. -/
def context (next : RequestState → Option GoError × RequestState) : Context RequestState where
  Next := next
  HandleError := HandleError
  Abort := Abort

/-- A request on which nothing has been written yet. -/
def freshState : RequestState := ⟨⟨200, ""⟩, false⟩

/-- Downstream handlers that fail with `e` and write nothing. -/
def failWith (e : GoError) : RequestState → Option GoError × RequestState :=
  fun s => (some e, s)

/-- A conversion function replacing every error by a plain error "oops". -/
def toPlain : ConvertErrorFunc RequestState :=
  fun s _ => (some ⟨"oops", none⟩, s)

/-- Modelled from the spec: the state of one request in the handler chain
(spec 6, "a handler chain abstraction"); the chaining mechanism is code of the
`makross` package, absent from the sources.  `position` is the place in the
chain of the handler to invoke next; `invoked` lists the places of the handlers
the chain has invoked so far, in order. -/
structure ChainState where
  request : RequestState
  position : Nat
  invoked : List Nat
deriving DecidableEq, Repr

/-- The state in which the chain hands control to the handler at `s.position`:
the handler is noted as invoked and the position moves past it. -/
def enter (s : ChainState) : ChainState :=
  { s with position := s.position + 1, invoked := s.invoked ++ [s.position] }

/-- Modelled from the spec: `Context.Next`, absent from the sources.  Spec 6:
"`Next() error` - invoke the remainder of the pipeline, returning its terminal
error or nil", and `Abort()` is the "signal to stop further handler
execution": the handlers from `position` on are invoked in order until one
returns an error, the chain ends or the signal is raised.  Every handler is
handed a context whose `Next` continues the same chain.  A handler is an
arbitrary function of the state, so the recursion is bounded by `fuel`; a run
that exhausts it stops where it stands. -/
def chainNext (handlers : List (Handler ChainState)) :
    Nat → ChainState → Option GoError × ChainState
  | 0, s => (none, s)
  | fuel + 1, s =>
    if s.request.aborted then (none, s)
    else if h : s.position < handlers.length then
      let c : Context ChainState :=
        { Next := chainNext handlers fuel
          HandleError := fun err t => { t with request := HandleError err t.request }
          Abort := fun t => { t with request := Abort t.request } }
      let r := handlers.get ⟨s.position, h⟩ c ⟨enter s, []⟩
      match r.1 with
      | some e => (some e, r.2.state)
      | none => chainNext handlers fuel r.2.state
    else (none, s)

/-- Modelled from the spec: the context a handler of the chain is handed:
`Next` continues the chain, `HandleError` and `Abort` act on the request as
modelled above. -/
def chainContext (handlers : List (Handler ChainState)) (fuel : Nat) : Context ChainState where
  Next := chainNext handlers fuel
  HandleError := fun err t => { t with request := HandleError err t.request }
  Abort := fun t => { t with request := Abort t.request }

/-- A request at the start of the chain. -/
def chainStart : ChainState := ⟨freshState, 0, []⟩

/-- A handler that fails with `e`. -/
def failingHandler (e : GoError) : Handler ChainState :=
  fun _ w => (some e, w)

/-- A handler that writes the body "late" and succeeds. -/
def lateHandler : Handler ChainState :=
  fun _ w => (none, ⟨{ w.state with request := { w.state.request with
    response := ⟨200, "late"⟩ } }, w.trace⟩)

/-- A middleware that runs the rest of the chain and drops its error, without
a response and without `c.Abort()`. -/
def swallowHandler : Handler ChainState :=
  fun c w => (none, ⟨(c.Next w.state).2, w.trace ++ [Event.next]⟩)

/-- The chain of the error middleware, a handler failing with 404 and a handler
registered after it. -/
def sampleChain : List (Handler ChainState) :=
  [ErrorHandler none [], failingHandler notFound, lateHandler]

end makross

namespace logger

/-- Modelled from the spec: a request collection (headers, query values, form
values, cookies; spec 3 and 6) as the list of its name/value entries.  The
`logger` and `makross` packages are not among the sources. -/
abbrev Collection := List (String × String)

/-- Modelled from the spec: the value stored under `name`, if there is one
(the first one when the name is stored more than once); names are compared
as they are written (spec 6: the parameter is "case-sensitive, taken
verbatim"). -/
def lookup (name : String) : Collection → Option String
  | [] => none
  | (key, value) :: rest => if key = name then some value else lookup name rest

/-- Modelled from the spec: spec 4.2, "looks up `NAME` in the respective
request collection; returns empty string if absent". -/
def get (coll : Collection) (name : String) : String :=
  (lookup name coll).getD ""

/-- Modelled from the spec: the request metadata of spec 3 and 6. -/
structure Request where
  method : String
  uri : String
  path : String
  host : String
  headers : Collection
  query : Collection
  form : Collection
  cookies : Collection
  /-- The transport-level peer address, `host:port`. -/
  remoteAddr : String

/-- Modelled from the spec: the response metadata of spec 3 and 6. -/
structure Response where
  status : Nat
  bytesWritten : Nat

/-- Modelled from the spec: `RequestLogContext` (spec 3).  Clock readings are
in nanoseconds; formatting a timestamp in a named layout and a duration in
human units is left to the host and carried as two functions. -/
structure RequestLogContext where
  request : Request
  response : Response
  /-- The start timestamp. -/
  start : Nat
  /-- The time at which the line is rendered. -/
  renderTime : Nat
  /-- The log timestamp in the layout of the given name, the default layout
  for an unknown name. -/
  timeText : String → String
  /-- A duration in human units. -/
  durationText : Nat → String
  /-- The correlation id generated for the request. -/
  generatedId : String
  /-- The terminal error of the chain, if it produced one. -/
  err : Option String

/-- Modelled from the spec: the recognized field names of spec 6. -/
inductive FieldName where
  | time (layout : String)
  | id | remote_ip | host | method | uri | path | referer | user_agent
  | status | latency | latency_human | bytes_in | bytes_out
  | header | query | form | cookie
deriving DecidableEq, Repr

/-- Modelled from the spec: `TemplateNode` (spec 3). -/
inductive TemplateNode where
  | Literal (text : String)
  | Field (name : FieldName) (param : Option String)
deriving DecidableEq, Repr

/-- Modelled from the spec: `CompiledTemplate`, "an ordered sequence of
`TemplateNode`" (spec 3). -/
abbrev CompiledTemplate := List TemplateNode

/-- Modelled from the spec: the fields that take a parameter (spec 4.1:
"header/query/form/cookie lookups"). -/
def FieldName.parameterized : FieldName → Bool
  | .header | .query | .form | .cookie => true
  | _ => false

/-- Modelled from the spec: the field a name stands for (spec 6, "Recognized
`name` values"); every name of the `time_` family is recognized, its layout
being looked up when the field is resolved (spec 4.2). -/
def fieldNamed (name : String) : Option FieldName :=
  if name = "id" then some .id
  else if name = "remote_ip" then some .remote_ip
  else if name = "host" then some .host
  else if name = "method" then some .method
  else if name = "uri" then some .uri
  else if name = "path" then some .path
  else if name = "referer" then some .referer
  else if name = "user_agent" then some .user_agent
  else if name = "status" then some .status
  else if name = "latency" then some .latency
  else if name = "latency_human" then some .latency_human
  else if name = "bytes_in" then some .bytes_in
  else if name = "bytes_out" then some .bytes_out
  else if name = "header" then some .header
  else if name = "query" then some .query
  else if name = "form" then some .form
  else if name = "cookie" then some .cookie
  else match name.data with
    | 't' :: 'i' :: 'm' :: 'e' :: '_' :: layout => some (.time (String.mk layout))
    | _ => none

/-- Modelled from the spec: the text between the delimiters of a field
reference (spec 4.1): it "is split on a `:` separator into `name` and optional
`param`", the parameter being what follows the first `:`, verbatim (spec 6).
An unrecognized name is an error, and so is a parameter on a field that takes
none or none on a field that takes one. -/
def parseField (text : List Char) : Option TemplateNode :=
  let param : Option String :=
    match text.dropWhile (· ≠ ':') with
    | [] => none
    | _ :: rest => some (String.mk rest)
  match fieldNamed (String.mk (text.takeWhile (· ≠ ':'))) with
  | none => none
  | some name => if name.parameterized = param.isSome then some (.Field name param) else none

/-- Modelled from the spec: a stretch of text outside the delimiters becomes
one `Literal` node; an empty stretch becomes no node. -/
def literalNode (text : List Char) : List TemplateNode :=
  if text = [] then [] else [.Literal (String.mk text)]

/-- Where the scan of a format string stands: in literal text, behind a `$`
that may open a field reference, or inside a field reference. -/
inductive Mode where
  | text
  | dollar
  | field

/-- Modelled from the spec: the scan of spec 4.1 over the characters of the
format string; `acc` is the text gathered so far in the current mode.  A field
reference opens with `$` followed by an opening brace and ends at the first
closing brace; one that never ends is an error. -/
def scan : List Char → Mode → List Char → Option CompiledTemplate
  | [], .text, acc => some (literalNode acc)
  | [], .dollar, acc => some (literalNode (acc ++ ['$']))
  | [], .field, _ => none
  | ch :: rest, .text, acc =>
    if ch = '$' then scan rest .dollar acc else scan rest .text (acc ++ [ch])
  | ch :: rest, .dollar, acc =>
    if ch = '{' then (scan rest .field []).map (literalNode acc ++ ·)
    else if ch = '$' then scan rest .dollar (acc ++ ['$'])
    else scan rest .text (acc ++ ['$', ch])
  | ch :: rest, .field, acc =>
    if ch = '}' then
      match parseField acc with
      | none => none
      | some node => (scan rest .text []).map (node :: ·)
    else scan rest .field (acc ++ [ch])

/-- Modelled from the spec: `Compile(format string) CompiledTemplate` (spec
4.1); `none` is the configuration error. -/
def Compile (format : String) : Option CompiledTemplate :=
  scan format.data .text []

/-- The constant `makross.HeaderXRealIP`. -/
def HeaderXRealIP : String := "X-Real-IP"

/-- The constant `makross.HeaderXForwardedFor`. -/
def HeaderXForwardedFor : String := "X-Forwarded-For"

/-- The header carrying an externally supplied request id (logger_test.go 109). -/
def HeaderXRequestID : String := "X-Request-ID"

/-- Modelled from the spec: the first entry of a comma-separated list. -/
def firstEntry (s : String) : String :=
  String.mk (s.data.takeWhile (· ≠ ','))

/-- Modelled from the spec: the text without the white space at its ends. -/
def trimSpace (s : String) : String :=
  String.mk ((s.data.dropWhile Char.isWhitespace).reverse.dropWhile Char.isWhitespace).reverse

/-- Modelled from the spec: an address "with port stripped": what stands
before its last `:`; an address without `:` is left as it is. -/
def stripPort (addr : String) : String :=
  match addr.data.reverse.dropWhile (· ≠ ':') with
  | [] => addr
  | _ :: host => String.mk host.reverse

/-- Modelled from the spec: the `remote_ip` resolution order of spec 4.2:
"value of a real IP header if present and non-empty; else the first entry of
a forwarded for header (comma-split, trimmed) if present; else the
transport-level peer address with port stripped". -/
def remoteIP (req : Request) : String :=
  if get req.headers HeaderXRealIP ≠ "" then get req.headers HeaderXRealIP
  else
    match lookup HeaderXForwardedFor req.headers with
    | some forwarded => trimSpace (firstEntry forwarded)
    | none => stripPort req.remoteAddr

/-- Modelled from the spec: `Resolve(node Field, ctx RequestLogContext) string`
(spec 4.2), the node given by its name and parameter. -/
def Resolve (name : FieldName) (param : Option String) (ctx : RequestLogContext) : String :=
  match name with
  | .time layout => ctx.timeText layout
  | .id =>
    if get ctx.request.headers HeaderXRequestID ≠ "" then get ctx.request.headers HeaderXRequestID
    else ctx.generatedId
  | .remote_ip => remoteIP ctx.request
  | .host => ctx.request.host
  | .method => ctx.request.method
  | .uri => ctx.request.uri
  | .path => if ctx.request.path = "" then "/" else ctx.request.path
  | .referer => get ctx.request.headers "Referer"
  | .user_agent => get ctx.request.headers "User-Agent"
  | .status => toString ctx.response.status
  | .latency => toString (ctx.renderTime - ctx.start)
  | .latency_human => ctx.durationText (ctx.renderTime - ctx.start)
  | .bytes_in => toString ((get ctx.request.headers "Content-Length").toNat?.getD 0)
  | .bytes_out => toString ctx.response.bytesWritten
  | .header => param.elim "" (get ctx.request.headers)
  | .query => param.elim "" (get ctx.request.query)
  | .form => param.elim "" (get ctx.request.form)
  | .cookie => param.elim "" (get ctx.request.cookies)

/-- Modelled from the spec: the text of one node. -/
def renderNode (ctx : RequestLogContext) : TemplateNode → String
  | .Literal text => text
  | .Field name param => Resolve name param ctx

/-- Modelled from the spec: the Render step of spec 4.3: "iterate the compiled
template nodes in order, resolving `Field` nodes ..., concatenating into one
line". -/
def Render (template : CompiledTemplate) (ctx : RequestLogContext) : String :=
  String.join (template.map (renderNode ctx))

/-- Modelled from the spec: the line the Logging Middleware renders for a
format string: the format is compiled (spec 4.1) and the compiled template
rendered against the context of the request (spec 4.3); `none` is the
configuration error of a format that does not compile. -/
def renderFormat (format : String) (ctx : RequestLogContext) : Option String :=
  (Compile format).map (fun template => Render template ctx)

/-- The request of `TestLoggerTemplate` (logger_test.go 103-114). -/
def testRequest : Request where
  method := "GET"
  uri := "/"
  path := "/"
  host := "example.com"
  headers := [("X-Real-IP", "127.0.0.1"), ("Referer", "google.com"),
    ("User-Agent", "makross-tests-agent"), ("X-Custom-Header", "AAA-CUSTOM-VALUE"),
    ("X-Request-ID", "6ba7b810-9dad-11d1-80b4-00c04fd430c8"),
    ("Cookie", "_ga=GA1.2.000000000.0000000000; session=ac08034cd216a647fc2eb62f2bcf7b810")]
  query := [("username", "apagano-param"), ("password", "secret")]
  form := [("username", "apagano-form"), ("password", "secret-form")]
  cookies := [("_ga", "GA1.2.000000000.0000000000"),
    ("session", "ac08034cd216a647fc2eb62f2bcf7b810")]
  remoteAddr := "192.0.2.1:1234"

/-- A log context around a request. -/
def contextOf (req : Request) : RequestLogContext where
  request := req
  response := ⟨200, 13⟩
  start := 0
  renderTime := 1500
  timeText := fun _ => "2006-01-02T15:04:05Z"
  durationText := fun _ => "1.5µs"
  generatedId := "generated"
  err := none

/-- A request that carries only the forwarded-for header. -/
def forwardedRequest : Request :=
  { testRequest with headers := [("X-Forwarded-For", "1.2.3.4, 5.6.6.7")] }

end logger

namespace fault

section Lemmas
variable {σ : Type}

theorem newEvents_append (w : World σ) (s : σ) (evs : List Event) :
    newEvents w ⟨s, w.trace ++ evs⟩ = evs := by
  simp [newEvents]

/-- Unfolding of the handler when the downstream handlers succeed. -/
theorem ErrorHandler_next_nil (logf : Option (LogFunc σ)) (errorf : List (ConvertErrorFunc σ))
    (c : Context σ) (w : World σ) (h : (c.Next w.state).1 = none) :
    ErrorHandler logf errorf c w = (none, ⟨(c.Next w.state).2, w.trace ++ [Event.next]⟩) := by
  simp [ErrorHandler, callNext, h]

/-- Unfolding of the handler on a downstream error: no log function, no
conversion function. -/
theorem ErrorHandler_error_none_nil (c : Context σ) (w : World σ) (e : GoError)
    (h : (c.Next w.state).1 = some e) :
    ErrorHandler none [] c w =
      (none, ⟨c.Abort (c.HandleError (some e) (c.Next w.state).2),
        w.trace ++ [Event.next, Event.handleError (some e), Event.abort]⟩) := by
  simp [ErrorHandler, callNext, h, callHandleError, callAbort]

/-- Unfolding of the handler on a downstream error: a log function, no
conversion function. -/
theorem ErrorHandler_error_some_nil (f : LogFunc σ) (c : Context σ) (w : World σ) (e : GoError)
    (h : (c.Next w.state).1 = some e) :
    ErrorHandler (some f) [] c w =
      (none, ⟨c.Abort (c.HandleError (some e) (f "%v" [e] (c.Next w.state).2)),
        w.trace ++ [Event.next, Event.logf "%v" [e], Event.handleError (some e),
          Event.abort]⟩) := by
  simp [ErrorHandler, callNext, h, callLogf, callHandleError, callAbort]

/-- Unfolding of the handler on a downstream error: no log function, at least
one conversion function. -/
theorem ErrorHandler_error_none_cons (g : ConvertErrorFunc σ) (gs : List (ConvertErrorFunc σ))
    (c : Context σ) (w : World σ) (e : GoError) (h : (c.Next w.state).1 = some e) :
    ErrorHandler none (g :: gs) c w =
      (none, ⟨c.Abort (c.HandleError (g (c.Next w.state).2 e).1 (g (c.Next w.state).2 e).2),
        w.trace ++ [Event.next, Event.errorf 0 e,
          Event.handleError (g (c.Next w.state).2 e).1, Event.abort]⟩) := by
  simp [ErrorHandler, callNext, h, callErrorf, callHandleError, callAbort]

/-- Unfolding of the handler on a downstream error: a log function and at least
one conversion function. -/
theorem ErrorHandler_error_some_cons (f : LogFunc σ) (g : ConvertErrorFunc σ)
    (gs : List (ConvertErrorFunc σ)) (c : Context σ) (w : World σ) (e : GoError)
    (h : (c.Next w.state).1 = some e) :
    ErrorHandler (some f) (g :: gs) c w =
      (none, ⟨c.Abort (c.HandleError (g (f "%v" [e] (c.Next w.state).2) e).1
          (g (f "%v" [e] (c.Next w.state).2) e).2),
        w.trace ++ [Event.next, Event.logf "%v" [e], Event.errorf 0 e,
          Event.handleError (g (f "%v" [e] (c.Next w.state).2) e).1, Event.abort]⟩) := by
  simp [ErrorHandler, callNext, h, callLogf, callErrorf, callHandleError, callAbort]

end Lemmas

/-- C1: when `c.Next()` returns nil the handler returns nil and does nothing
else: the state is the one `c.Next()` left and the only call on the trace is
`c.Next()` itself, so neither `logf`, nor a conversion function, nor
`c.HandleError`, nor `c.Abort` is called. -/
theorem C1_next_nil_pass_through {σ : Type} (logf : Option (LogFunc σ))
    (errorf : List (ConvertErrorFunc σ)) (c : Context σ) (w : World σ)
    (h : (c.Next w.state).1 = none) :
    (ErrorHandler logf errorf c w).1 = none ∧
    (ErrorHandler logf errorf c w).2.state = (c.Next w.state).2 ∧
    newEvents w (ErrorHandler logf errorf c w).2 = [Event.next] ∧
    (∀ ev ∈ newEvents w (ErrorHandler logf errorf c w).2,
      ev.isLogf = false ∧ ev.isErrorf = false ∧ ev.isHandleError = false ∧
        ev.isAbort = false) := by
  rw [ErrorHandler_next_nil logf errorf c w h]
  simp [newEvents_append, Event.isLogf, Event.isErrorf, Event.isHandleError, Event.isAbort]

/-- C2: the handler returns nil whatever `c.Next()` returns; a downstream error
never reaches the caller of the middleware. -/
theorem C2_handler_returns_nil {σ : Type} (logf : Option (LogFunc σ))
    (errorf : List (ConvertErrorFunc σ)) (c : Context σ) (w : World σ) :
    (ErrorHandler logf errorf c w).1 = none := by
  simp only [ErrorHandler]
  split <;> rfl

/-- C3: on a downstream error `e` and a non-nil `logf`, the handler calls
`logf` exactly once, as `logf("%v", e)` with the original error, directly after
`c.Next()`: before any conversion function and before `c.HandleError`, which
both receive the state the log call left, with or without a conversion
function. -/
theorem C3_logf_once_with_original_error_first {σ : Type} (f : LogFunc σ)
    (errorf : List (ConvertErrorFunc σ)) (c : Context σ) (w : World σ) (e : GoError)
    (h : (c.Next w.state).1 = some e) :
    (newEvents w (ErrorHandler (some f) errorf c w).2).countP Event.isLogf = 1 ∧
    (∃ rest, newEvents w (ErrorHandler (some f) errorf c w).2 =
        Event.next :: Event.logf "%v" [e] :: rest ∧
        ∀ ev ∈ rest, ev.isLogf = false) ∧
    (errorf = [] → (ErrorHandler (some f) errorf c w).2.state =
        c.Abort (c.HandleError (some e) (f "%v" [e] (c.Next w.state).2))) ∧
    (∀ g gs, errorf = g :: gs → (ErrorHandler (some f) errorf c w).2.state =
        c.Abort (c.HandleError (g (f "%v" [e] (c.Next w.state).2) e).1
          (g (f "%v" [e] (c.Next w.state).2) e).2)) := by
  rcases errorf with _ | ⟨g, gs⟩
  · rw [ErrorHandler_error_some_nil f c w e h]
    simp [newEvents_append, Event.isLogf]
  · rw [ErrorHandler_error_some_cons f g gs c w e h]
    simp [newEvents_append, Event.isLogf]

/-- Witness of C1: the journal context whose `c.Next()` returns nil. -/
theorem C1_next_nil_pass_through_witness :
    ((journalContext none).Next freshWorld.state).1 = none ∧
    (ErrorHandler (some journalLogf) [journalErrorf "x"] (journalContext none) freshWorld).2.state
      = ["next"] ∧
    newEvents freshWorld
      (ErrorHandler (some journalLogf) [journalErrorf "x"] (journalContext none) freshWorld).2
      = [Event.next] :=
  ⟨rfl,
   (C1_next_nil_pass_through (some journalLogf) [journalErrorf "x"] (journalContext none)
      freshWorld rfl).2.1,
   (C1_next_nil_pass_through (some journalLogf) [journalErrorf "x"] (journalContext none)
      freshWorld rfl).2.2.1⟩

/-- Witness of C3: a plain error, a log function and a conversion function;
the journal shows the log line right after `next`. -/
theorem C3_logf_once_with_original_error_first_witness :
    ((journalContext (some plainError)).Next freshWorld.state).1 = some plainError ∧
    (ErrorHandler (some journalLogf) [journalErrorf "x"] (journalContext (some plainError))
      freshWorld).2.state
      = ["next", "log %v boom", "convert x", "handle xboom", "abort"] :=
  ⟨rfl,
   (C3_logf_once_with_original_error_first journalLogf [journalErrorf "x"]
      (journalContext (some plainError)) freshWorld plainError rfl).2.2.2
      (journalErrorf "x") [] rfl⟩

/-- C4: on a downstream error `e`, for every `logf` (nil included: then no log
call is made and the handler still runs to its end), `c.HandleError` is called
exactly once; its argument is `e` itself when no conversion function is given
and the result of `errorf[0](c, e)` otherwise, where `errorf[0]` is applied to
the context as the log step left it and to the original error `e`. -/
theorem C4_handleError_once_with_converted_error {σ : Type} (logf : Option (LogFunc σ))
    (errorf : List (ConvertErrorFunc σ)) (c : Context σ) (w : World σ) (e : GoError)
    (h : (c.Next w.state).1 = some e) :
    (newEvents w (ErrorHandler logf errorf c w).2).countP Event.isHandleError = 1 ∧
    (logf = none →
      (newEvents w (ErrorHandler logf errorf c w).2).countP Event.isLogf = 0) ∧
    (errorf = [] →
      Event.handleError (some e) ∈ newEvents w (ErrorHandler logf errorf c w).2 ∧
      (newEvents w (ErrorHandler logf errorf c w).2).countP Event.isErrorf = 0 ∧
      (ErrorHandler logf errorf c w).2.state =
        c.Abort (c.HandleError (some e)
          (logf.elim (c.Next w.state).2 (fun f => f "%v" [e] (c.Next w.state).2)))) ∧
    (∀ g gs, errorf = g :: gs →
      Event.handleError
          (g (logf.elim (c.Next w.state).2 (fun f => f "%v" [e] (c.Next w.state).2)) e).1
        ∈ newEvents w (ErrorHandler logf errorf c w).2 ∧
      Event.errorf 0 e ∈ newEvents w (ErrorHandler logf errorf c w).2 ∧
      (ErrorHandler logf errorf c w).2.state =
        c.Abort (c.HandleError
          (g (logf.elim (c.Next w.state).2 (fun f => f "%v" [e] (c.Next w.state).2)) e).1
          (g (logf.elim (c.Next w.state).2 (fun f => f "%v" [e] (c.Next w.state).2)) e).2)) := by
  rcases logf with _ | f <;> rcases errorf with _ | ⟨g, gs⟩
  · rw [ErrorHandler_error_none_nil c w e h]
    simp [newEvents_append, Event.isHandleError, Event.isLogf, Event.isErrorf]
  · rw [ErrorHandler_error_none_cons g gs c w e h]
    simp [newEvents_append, Event.isHandleError, Event.isLogf, Event.isErrorf]
  · rw [ErrorHandler_error_some_nil f c w e h]
    simp [newEvents_append, Event.isHandleError, Event.isLogf, Event.isErrorf]
  · rw [ErrorHandler_error_some_cons f g gs c w e h]
    simp [newEvents_append, Event.isHandleError, Event.isLogf, Event.isErrorf]

/-- Witness of C4: a nil log function and one conversion function. -/
theorem C4_handleError_once_with_converted_error_witness :
    ((journalContext (some notFound)).Next freshWorld.state).1 = some notFound ∧
    (ErrorHandler none [journalErrorf "x"] (journalContext (some notFound)) freshWorld).2.state
      = ["next", "convert x", "handle xnot found", "abort"] :=
  ⟨rfl,
   ((C4_handleError_once_with_converted_error none [journalErrorf "x"]
      (journalContext (some notFound)) freshWorld notFound rfl).2.2.2
      (journalErrorf "x") [] rfl).2.2⟩

/-- On a downstream error, in every context, the handler calls `c.Abort()`
exactly once, as its last call and directly after `c.HandleError`; the state it
returns is the one `c.Abort()` produced from the state `c.HandleError` left. -/
theorem ErrorHandler_error_ends_with_abort {σ : Type} (logf : Option (LogFunc σ))
    (errorf : List (ConvertErrorFunc σ)) (c : Context σ) (w : World σ) (e : GoError)
    (h : (c.Next w.state).1 = some e) :
    (newEvents w (ErrorHandler logf errorf c w).2).countP Event.isAbort = 1 ∧
    (∃ pre err s,
      newEvents w (ErrorHandler logf errorf c w).2 =
        pre ++ [Event.handleError err, Event.abort] ∧
      (∀ ev ∈ pre, ev.isAbort = false ∧ ev.isHandleError = false) ∧
      (ErrorHandler logf errorf c w).2.state = c.Abort (c.HandleError err s)) ∧
    (∀ stopped : σ → Prop, (∀ s, stopped (c.Abort s)) →
      stopped (ErrorHandler logf errorf c w).2.state) := by
  rcases logf with _ | f <;> rcases errorf with _ | ⟨g, gs⟩
  · rw [ErrorHandler_error_none_nil c w e h]
    refine ⟨by simp [newEvents_append, Event.isAbort],
      ⟨[Event.next], some e, _, by simp [newEvents_append], by simp [Event.isAbort,
        Event.isHandleError], rfl⟩, fun stopped hs => hs _⟩
  · rw [ErrorHandler_error_none_cons g gs c w e h]
    refine ⟨by simp [newEvents_append, Event.isAbort],
      ⟨[Event.next, Event.errorf 0 e], _, _, by simp [newEvents_append], by simp [Event.isAbort,
        Event.isHandleError], rfl⟩, fun stopped hs => hs _⟩
  · rw [ErrorHandler_error_some_nil f c w e h]
    refine ⟨by simp [newEvents_append, Event.isAbort],
      ⟨[Event.next, Event.logf "%v" [e]], some e, _, by simp [newEvents_append],
        by simp [Event.isAbort, Event.isHandleError], rfl⟩, fun stopped hs => hs _⟩
  · rw [ErrorHandler_error_some_cons f g gs c w e h]
    refine ⟨by simp [newEvents_append, Event.isAbort],
      ⟨[Event.next, Event.logf "%v" [e], Event.errorf 0 e], _, _, by simp [newEvents_append],
        by simp [Event.isAbort, Event.isHandleError], rfl⟩, fun stopped hs => hs _⟩

/-- The handler returns nil in every context. -/
theorem ErrorHandler_result_nil {σ : Type} (logf : Option (LogFunc σ))
    (errorf : List (ConvertErrorFunc σ)) (c : Context σ) (w : World σ) :
    (ErrorHandler logf errorf c w).1 = none := by
  simp only [ErrorHandler]
  split <;> rfl

/-- C10: conversion functions after the first are never used: the handler
built from `f0, f1, ...` gives the same result, state and calls as the handler
built from `f0` alone, and the only conversion call it can make is the one of
`errorf[0]`. -/
theorem C10_only_first_conversion_function_used {σ : Type} (logf : Option (LogFunc σ))
    (f0 : ConvertErrorFunc σ) (fs : List (ConvertErrorFunc σ)) (c : Context σ) (w : World σ) :
    ErrorHandler logf (f0 :: fs) c w = ErrorHandler logf [f0] c w ∧
    (∀ ev ∈ newEvents w (ErrorHandler logf (f0 :: fs) c w).2,
      ∀ i err, ev = Event.errorf i err → i = 0) ∧
    (newEvents w (ErrorHandler logf (f0 :: fs) c w).2).countP Event.isErrorf ≤ 1 := by
  refine ⟨by simp [ErrorHandler], ?_⟩
  rcases hn : (c.Next w.state).1 with _ | e
  · rw [ErrorHandler_next_nil logf (f0 :: fs) c w hn]
    simp [newEvents_append, Event.isErrorf]
  · rcases logf with _ | f
    · rw [ErrorHandler_error_none_cons f0 fs c w e hn]
      simp [newEvents_append, Event.isErrorf]
    · rw [ErrorHandler_error_some_cons f f0 fs c w e hn]
      simp [newEvents_append, Event.isErrorf]

/-- Witness of C10: of two conversion functions only the first leaves its line
in the journal. -/
theorem C10_only_first_conversion_function_used_witness :
    (ErrorHandler (some journalLogf) [journalErrorf "x", journalErrorf "y"]
      (journalContext (some plainError)) freshWorld).2.state
      = ["next", "log %v boom", "convert x", "handle xboom", "abort"] ∧
    newEvents freshWorld (ErrorHandler (some journalLogf) [journalErrorf "x", journalErrorf "y"]
      (journalContext (some plainError)) freshWorld).2
      = [Event.next, Event.logf "%v" [plainError], Event.errorf 0 plainError,
          Event.handleError (some ⟨"xboom", some 400⟩), Event.abort] :=
  ⟨congrArg (fun r => r.2.state)
      (C10_only_first_conversion_function_used (some journalLogf) (journalErrorf "x")
        [journalErrorf "y"] (journalContext (some plainError)) freshWorld).1,
   congrArg (fun r => newEvents freshWorld r.2)
      (C10_only_first_conversion_function_used (some journalLogf) (journalErrorf "x")
        [journalErrorf "y"] (journalContext (some plainError)) freshWorld).1⟩

end fault

namespace makross

open fault

/-- C6: without a conversion function, a downstream error `e` leaves the
response with the status code of `e` when `e` implements `makross.HTTPError`
(404 for a 404 error) and with 500 otherwise; the body is the message of `e`
in both cases. -/
theorem C6_status_from_error_body_is_message (logf : Option (LogFunc RequestState))
    (next : RequestState → Option GoError × RequestState) (w : World RequestState)
    (e : GoError) (h : (next w.state).1 = some e) :
    (∀ code, e.statusCode = some code →
      (ErrorHandler logf [] (context next) w).2.state.response.status = code) ∧
    (e.statusCode = none →
      (ErrorHandler logf [] (context next) w).2.state.response.status = 500) ∧
    (ErrorHandler logf [] (context next) w).2.state.response.body = e.message := by
  have hn : ((context next).Next w.state).1 = some e := h
  rcases logf with _ | f
  · rw [ErrorHandler_error_none_nil (context next) w e hn]
    refine ⟨fun code hc => ?_, fun hc => ?_, ?_⟩ <;>
      simp [context, HandleError, Abort, classify, StatusInternalServerError, *]
  · rw [ErrorHandler_error_some_nil f (context next) w e hn]
    refine ⟨fun code hc => ?_, fun hc => ?_, ?_⟩ <;>
      simp [context, HandleError, Abort, classify, StatusInternalServerError, *]

/-- Witness of C6: a 404 error renders status 404 and its message. -/
theorem C6_status_from_error_body_is_message_witness :
    (failWith notFound freshState).1 = some notFound ∧
    (ErrorHandler none [] (context (failWith notFound)) ⟨freshState, []⟩).2.state.response
      = ⟨404, "not found"⟩ :=
  ⟨rfl, by
    have h := C6_status_from_error_body_is_message none (failWith notFound) ⟨freshState, []⟩
      notFound rfl
    exact congrArg₂ Response.mk (h.1 404 rfl) h.2.2⟩

/-- C7 as stated fails: a 404 error converted to a plain error is answered with
status 500, not with the 404 classified from the original error; and since the
handler passes only the converted error on, no implementation of
`c.HandleError` and `c.Abort` can answer with the status of the original
error for every error. -/
theorem C7_status_not_from_original_error :
    ((failWith notFound freshState).1 = some notFound ∧
     classify notFound = 404 ∧
     (ErrorHandler none [toPlain] (context (failWith notFound))
       ⟨freshState, []⟩).2.state.response.status = 500) ∧
    ¬ ∃ (handleError : Option GoError → RequestState → RequestState)
        (abort : RequestState → RequestState),
      ∀ e : GoError,
        (ErrorHandler none [toPlain] ⟨failWith e, handleError, abort⟩
          ⟨freshState, []⟩).2.state.response.status = classify e := by
  refine ⟨⟨rfl, rfl, rfl⟩, ?_⟩
  rintro ⟨handleError, abort, hall⟩
  have h₁ := hall notFound
  have h₂ := hall plainError
  rw [ErrorHandler_error_none_cons toPlain [] _ _ notFound rfl] at h₁
  rw [ErrorHandler_error_none_cons toPlain [] _ _ plainError rfl] at h₂
  simp only [failWith, toPlain] at h₁ h₂
  rw [h₁] at h₂
  revert h₂
  decide

/-- C7 amended: with a conversion function, status and body of the response
both come from the converted error `errorf[0](c, e)`, when it is not nil: the
status is its status code if it implements `makross.HTTPError` and 500
otherwise, the body is its message. -/
theorem C7_status_and_body_from_converted_error (logf : Option (LogFunc RequestState))
    (g : ConvertErrorFunc RequestState) (gs : List (ConvertErrorFunc RequestState))
    (next : RequestState → Option GoError × RequestState) (w : World RequestState)
    (e e' : GoError) (h : (next w.state).1 = some e)
    (hg : (g (logf.elim (next w.state).2 (fun f => f "%v" [e] (next w.state).2)) e).1 = some e') :
    (ErrorHandler logf (g :: gs) (context next) w).2.state =
      Abort (HandleError (some e')
        (g (logf.elim (next w.state).2 (fun f => f "%v" [e] (next w.state).2)) e).2) ∧
    (ErrorHandler logf (g :: gs) (context next) w).2.state.response
      = ⟨classify e', e'.message⟩ := by
  have hn : ((context next).Next w.state).1 = some e := h
  rcases logf with _ | f
  · rw [ErrorHandler_error_none_cons g gs (context next) w e hn]
    simp only [Option.elim] at hg
    simp [context, HandleError, Abort, hg]
  · rw [ErrorHandler_error_some_cons f g gs (context next) w e hn]
    simp only [Option.elim] at hg
    simp [context, HandleError, Abort, hg]

/-- Witness of C7 amended: the 404 error converted to the plain error "oops". -/
theorem C7_status_and_body_from_converted_error_witness :
    (failWith notFound freshState).1 = some notFound ∧
    (ErrorHandler none [toPlain] (context (failWith notFound)) ⟨freshState, []⟩).2.state.response
      = ⟨500, "oops"⟩ :=
  ⟨rfl, (C7_status_and_body_from_converted_error none toPlain [] (failWith notFound)
    ⟨freshState, []⟩ notFound ⟨"oops", none⟩ rfl rfl).2⟩

/-- A chain whose stop signal is raised invokes no handler. -/
theorem chainNext_aborted (handlers : List (Handler ChainState)) (fuel : Nat) (s : ChainState)
    (h : s.request.aborted = true) : chainNext handlers fuel s = (none, s) := by
  cases fuel with
  | zero => rfl
  | succ n => simp [chainNext, h]

/-- One turn of the chain at a handler that returns nil and leaves the stop
signal raised: the chain returns nil in the state the handler left. -/
theorem chainNext_stops_after (handlers : List (Handler ChainState)) (fuel : Nat)
    (s : ChainState) (hs : s.request.aborted = false) (hk : s.position < handlers.length)
    (hnil : (handlers.get ⟨s.position, hk⟩ (chainContext handlers fuel) ⟨enter s, []⟩).1 = none)
    (hstop : (handlers.get ⟨s.position, hk⟩ (chainContext handlers fuel)
      ⟨enter s, []⟩).2.state.request.aborted = true) :
    chainNext handlers (fuel + 1) s =
      (none, (handlers.get ⟨s.position, hk⟩ (chainContext handlers fuel) ⟨enter s, []⟩).2.state) := by
  have hnil' := hnil
  have hstop' := hstop
  simp only [chainContext] at hnil' hstop'
  rw [chainNext]
  simp only [hs, Bool.false_eq_true, if_false, hk, dite_true, hnil']
  exact chainNext_aborted handlers fuel _ hstop'

/-- A middleware that drops the error without `c.Abort()` lets the chain go on:
the handler registered after the failing one is invoked. -/
theorem chain_goes_on_without_abort :
    chainNext [swallowHandler, failingHandler notFound, lateHandler] 3 chainStart
      = (none, ⟨⟨⟨200, "late"⟩, false⟩, 3, [0, 1, 2]⟩) := by
  decide

/-- C5: in the handler chain, when the handlers after the error middleware
return an error, the middleware calls `c.Abort()` exactly once, as its last
call and directly after `c.HandleError` has written the response; it leaves
the stop signal raised, the chain that invoked it returns nil in the very
state the middleware left, and every later `c.Next()` returns nil without
invoking a handler: no handler runs after the error has been handled. -/
theorem C5_abort_once_then_no_handler_runs (handlers : List (Handler ChainState))
    (fuel : Nat) (logf : Option (LogFunc ChainState))
    (errorf : List (ConvertErrorFunc ChainState)) (s : ChainState) (e : GoError)
    (hs : s.request.aborted = false) (hk : s.position < handlers.length)
    (hmw : handlers.get ⟨s.position, hk⟩ = ErrorHandler logf errorf)
    (h : (chainNext handlers fuel (enter s)).1 = some e) :
    (newEvents ⟨enter s, []⟩
      (ErrorHandler logf errorf (chainContext handlers fuel) ⟨enter s, []⟩).2).countP
        Event.isAbort = 1 ∧
    (∃ pre err,
      newEvents ⟨enter s, []⟩
          (ErrorHandler logf errorf (chainContext handlers fuel) ⟨enter s, []⟩).2 =
        pre ++ [Event.handleError err, Event.abort] ∧
      (∀ ev ∈ pre, ev.isAbort = false ∧ ev.isHandleError = false)) ∧
    (ErrorHandler logf errorf (chainContext handlers fuel)
      ⟨enter s, []⟩).2.state.request.aborted = true ∧
    chainNext handlers (fuel + 1) s =
      (none, (ErrorHandler logf errorf (chainContext handlers fuel) ⟨enter s, []⟩).2.state) ∧
    (∀ fuel', chainNext handlers fuel'
        (ErrorHandler logf errorf (chainContext handlers fuel) ⟨enter s, []⟩).2.state =
      (none, (ErrorHandler logf errorf (chainContext handlers fuel) ⟨enter s, []⟩).2.state)) := by
  have hn : ((chainContext handlers fuel).Next (World.mk (enter s) []).state).1 = some e := h
  obtain ⟨hcount, ⟨pre, err, t, hev, hpre, hstate⟩, _⟩ :=
    ErrorHandler_error_ends_with_abort logf errorf (chainContext handlers fuel)
      ⟨enter s, []⟩ e hn
  have hstop : (ErrorHandler logf errorf (chainContext handlers fuel)
      ⟨enter s, []⟩).2.state.request.aborted = true := by
    rw [hstate]
    simp [chainContext, Abort]
  refine ⟨hcount, ⟨pre, err, hev, hpre⟩, hstop, ?_, fun fuel' => chainNext_aborted _ _ _ hstop⟩
  have hturn := chainNext_stops_after handlers fuel s hs hk
    (by rw [hmw]; exact ErrorHandler_result_nil _ _ _ _) (by rw [hmw]; exact hstop)
  rw [hturn, hmw]

/-- Witness of C5: the chain of the error middleware, a handler failing with
404 and a later handler: the response is the 404 one, the stop signal is
raised and only the first two handlers were invoked. -/
theorem C5_abort_once_then_no_handler_runs_witness :
    chainStart.request.aborted = false ∧
    sampleChain.get ⟨chainStart.position, by decide⟩ = ErrorHandler none [] ∧
    (chainNext sampleChain 2 (enter chainStart)).1 = some notFound ∧
    chainNext sampleChain 3 chainStart
      = (none, ⟨⟨⟨404, "not found"⟩, true⟩, 2, [0, 1]⟩) :=
  ⟨rfl, rfl, rfl,
   (C5_abort_once_then_no_handler_runs sampleChain 2 none [] chainStart notFound rfl
      (by decide) rfl rfl).2.2.2.1⟩

end makross

namespace logger

theorem scan_field_run (name : List Char) (h : ∀ ch ∈ name, ch ≠ '}') (rest acc : List Char) :
    scan (name ++ '}' :: rest) .field acc =
      match parseField (acc ++ name) with
      | none => none
      | some node => (scan rest .text []).map (node :: ·) := by
  induction name generalizing acc with
  | nil => simp [scan]
  | cons ch name ih =>
    have hch : ch ≠ '}' := h ch (by simp)
    have ih' := ih (fun x hx => h x (by simp [hx])) (acc ++ [ch])
    show scan (ch :: (name ++ '}' :: rest)) .field acc = _
    rw [scan, if_neg hch, ih']
    simp

theorem takeWhile_until {α : Type} (p : α → Bool) (l₁ : List α) (x : α) (l₂ : List α)
    (h₁ : ∀ a ∈ l₁, p a = true) (hx : p x = false) :
    (l₁ ++ x :: l₂).takeWhile p = l₁ := by
  induction l₁ with
  | nil => simp [List.takeWhile, hx]
  | cons a l ih =>
    have ha : p a = true := h₁ a (by simp)
    simp [List.takeWhile, ha, ih (fun b hb => h₁ b (by simp [hb]))]

theorem dropWhile_until {α : Type} (p : α → Bool) (l₁ : List α) (x : α) (l₂ : List α)
    (h₁ : ∀ a ∈ l₁, p a = true) (hx : p x = false) :
    (l₁ ++ x :: l₂).dropWhile p = x :: l₂ := by
  induction l₁ with
  | nil => simp [List.dropWhile, hx]
  | cons a l ih =>
    have ha : p a = true := h₁ a (by simp)
    simp [List.dropWhile, ha, ih (fun b hb => h₁ b (by simp [hb]))]

/-- The text `kind:N` of a parameterized field parses to that field with
parameter `N`. -/
theorem parseField_param (kind : String) (fld : FieldName) (N : String)
    (hk : ∀ ch ∈ kind.data, ch ≠ ':') (hf : fieldNamed kind = some fld)
    (hp : fld.parameterized = true) :
    parseField (kind.data ++ ':' :: N.data) = some (.Field fld (some N)) := by
  have ht : (kind.data ++ ':' :: N.data).takeWhile (· ≠ ':') = kind.data :=
    takeWhile_until _ _ _ _ (fun a ha => by simpa using hk a ha) (by simp)
  have hd : (kind.data ++ ':' :: N.data).dropWhile (· ≠ ':') = ':' :: N.data :=
    dropWhile_until _ _ _ _ (fun a ha => by simpa using hk a ha) (by simp)
  have hkind : String.mk kind.data = kind := rfl
  simp only [parseField, ht, hd, hkind, hf, hp]
  rfl

/-- The format string of one parameterized field reference compiles to the
template of that one field. -/
theorem Compile_param (kind : String) (fld : FieldName) (N : String)
    (hk : ∀ ch ∈ kind.data, ch ≠ ':' ∧ ch ≠ '}') (hf : fieldNamed kind = some fld)
    (hp : fld.parameterized = true) (hN : ∀ ch ∈ N.data, ch ≠ '}') :
    Compile ("$\x7b" ++ kind ++ ":" ++ N ++ "\x7d") = some [.Field fld (some N)] := by
  have hd : ("$\x7b" ++ kind ++ ":" ++ N ++ "\x7d").data
      = '$' :: '{' :: ((kind.data ++ ':' :: N.data) ++ '}' :: []) := by
    simp [String.data_append]
  have hall : ∀ ch ∈ kind.data ++ ':' :: N.data, ch ≠ '}' := by
    intro ch hch
    rcases List.mem_append.mp hch with hq | hn
    · exact (hk ch hq).2
    · rcases List.mem_cons.mp hn with hc | hn'
      · rw [hc]; decide
      · exact hN ch hn'
  rw [Compile, hd, scan, if_pos rfl, scan, if_pos rfl, scan_field_run _ hall, List.nil_append,
    parseField_param kind fld N (fun ch hch => (hk ch hch).1) hf hp]
  simp [scan, literalNode]

theorem lookup_of_first (name value : String) (before after : Collection)
    (h : ∀ entry ∈ before, entry.1 ≠ name) :
    lookup name (before ++ (name, value) :: after) = some value := by
  induction before with
  | nil => simp [lookup]
  | cons entry rest ih =>
    obtain ⟨key, v⟩ := entry
    have hkey : key ≠ name := h (key, v) (by simp)
    simp only [List.cons_append, lookup, hkey, if_false]
    exact ih (fun x hx => h x (by simp [hx]))

theorem lookup_of_absent (name : String) (coll : Collection)
    (h : ∀ entry ∈ coll, entry.1 ≠ name) : lookup name coll = none := by
  induction coll with
  | nil => rfl
  | cons entry rest ih =>
    obtain ⟨key, v⟩ := entry
    have hkey : key ≠ name := h (key, v) (by simp)
    simp only [lookup, hkey, if_false]
    exact ih (fun x hx => h x (by simp [hx]))

theorem lookup_filter (name : String) (coll : Collection) :
    lookup name (coll.filter (fun entry => entry.1 = name)) = lookup name coll := by
  induction coll with
  | nil => rfl
  | cons entry rest ih =>
    obtain ⟨key, v⟩ := entry
    by_cases hkey : key = name
    · simp [List.filter, hkey, lookup]
    · simp [List.filter, hkey, lookup, ih]

theorem Render_single_field (name : FieldName) (param : Option String) (ctx : RequestLogContext) :
    Render [.Field name param] ctx = Resolve name param ctx := by
  simp [Render, renderNode, String.join]

theorem trimSpace_parts (l : List Char) :
    ∃ before after : List Char,
      l = before ++ (trimSpace (String.mk l)).data ++ after ∧
      (∀ ch ∈ before, ch.isWhitespace = true) ∧ (∀ ch ∈ after, ch.isWhitespace = true) := by
  refine ⟨l.takeWhile Char.isWhitespace,
    ((l.dropWhile Char.isWhitespace).reverse.takeWhile Char.isWhitespace).reverse, ?_,
    fun ch hch => List.mem_takeWhile_imp hch,
    fun ch hch => List.mem_takeWhile_imp (List.mem_reverse.mp hch)⟩
  have h₁ := List.takeWhile_append_dropWhile Char.isWhitespace l
  have h₂ := List.takeWhile_append_dropWhile Char.isWhitespace
    (l.dropWhile Char.isWhitespace).reverse
  have h₃ := congrArg List.reverse h₂
  rw [List.reverse_append, List.reverse_reverse] at h₃
  simp only [trimSpace, List.append_assoc]
  rw [h₃, h₁]

theorem trimSpace_ends (l : List Char) :
    (∀ ch, (trimSpace (String.mk l)).data.head? = some ch → ch.isWhitespace = false) ∧
    (∀ ch, (trimSpace (String.mk l)).data.getLast? = some ch → ch.isWhitespace = false) := by
  have hdrop : ∀ (m : List Char) (ch : Char),
      (m.dropWhile Char.isWhitespace).head? = some ch → ch.isWhitespace = false := by
    intro m ch hm
    have := List.head?_dropWhile_not Char.isWhitespace m
    rw [hm] at this
    exact this
  constructor
  · intro ch hch
    simp only [trimSpace, List.head?_reverse] at hch
    have hne : (l.dropWhile Char.isWhitespace).reverse.dropWhile Char.isWhitespace ≠ [] := by
      intro hnil
      rw [hnil] at hch
      simp at hch
    have h₂ := List.takeWhile_append_dropWhile Char.isWhitespace
      (l.dropWhile Char.isWhitespace).reverse
    have hlast := List.getLast?_append_of_ne_nil
      ((l.dropWhile Char.isWhitespace).reverse.takeWhile Char.isWhitespace) hne
    rw [h₂, List.getLast?_reverse] at hlast
    exact hdrop l ch (hlast.trans hch)
  · intro ch hch
    simp only [trimSpace, List.getLast?_reverse] at hch
    exact hdrop _ ch hch

/-- C8: a template consisting of one parameterized field `query:N` (likewise
`form:N`, `header:N`, `cookie:N`) renders the value stored under `N` in the
respective collection of the request, the empty string when nothing is stored
under `N`, and always renders; the line depends on no entry stored under
another name.  A format string with the field reference of a name `N` free of
the closing brace compiles to that template. -/
theorem C8_param_field_renders_stored_value (ctx : RequestLogContext) (N : String) :
    (Render [.Field .query (some N)] ctx = get ctx.request.query N ∧
     Render [.Field .form (some N)] ctx = get ctx.request.form N ∧
     Render [.Field .header (some N)] ctx = get ctx.request.headers N ∧
     Render [.Field .cookie (some N)] ctx = get ctx.request.cookies N) ∧
    ((∀ ch ∈ N.data, ch ≠ '}') →
      renderFormat ("$\x7bquery:" ++ N ++ "\x7d") ctx = some (get ctx.request.query N) ∧
      renderFormat ("$\x7bform:" ++ N ++ "\x7d") ctx = some (get ctx.request.form N) ∧
      renderFormat ("$\x7bheader:" ++ N ++ "\x7d") ctx = some (get ctx.request.headers N) ∧
      renderFormat ("$\x7bcookie:" ++ N ++ "\x7d") ctx = some (get ctx.request.cookies N)) ∧
    (∀ coll : Collection,
      (∀ before value after, coll = before ++ (N, value) :: after →
        (∀ entry ∈ before, entry.1 ≠ N) → get coll N = value) ∧
      ((∀ entry ∈ coll, entry.1 ≠ N) → get coll N = "") ∧
      (∀ coll' : Collection,
        coll'.filter (fun entry => entry.1 = N) = coll.filter (fun entry => entry.1 = N) →
        get coll' N = get coll N)) := by
  have hnode : Render [.Field .query (some N)] ctx = get ctx.request.query N ∧
      Render [.Field .form (some N)] ctx = get ctx.request.form N ∧
      Render [.Field .header (some N)] ctx = get ctx.request.headers N ∧
      Render [.Field .cookie (some N)] ctx = get ctx.request.cookies N := by
    simp [Render_single_field, Resolve]
  refine ⟨hnode, fun hN => ?_, fun coll => ⟨?_, ?_, ?_⟩⟩
  · have hq := Compile_param "query" .query N (by decide) rfl rfl hN
    have hf := Compile_param "form" .form N (by decide) rfl rfl hN
    have hh := Compile_param "header" .header N (by decide) rfl rfl hN
    have hc := Compile_param "cookie" .cookie N (by decide) rfl rfl hN
    simp only [String.append_assoc] at hq hf hh hc ⊢
    simp only [renderFormat]
    refine ⟨?_, ?_, ?_, ?_⟩
    · rw [show "$\x7bquery:" ++ (N ++ "\x7d") = "$\x7b" ++ ("query" ++ (":" ++ (N ++ "\x7d")))
        from rfl, hq, Option.map_some', hnode.1]
    · rw [show "$\x7bform:" ++ (N ++ "\x7d") = "$\x7b" ++ ("form" ++ (":" ++ (N ++ "\x7d")))
        from rfl, hf, Option.map_some', hnode.2.1]
    · rw [show "$\x7bheader:" ++ (N ++ "\x7d") = "$\x7b" ++ ("header" ++ (":" ++ (N ++ "\x7d")))
        from rfl, hh, Option.map_some', hnode.2.2.1]
    · rw [show "$\x7bcookie:" ++ (N ++ "\x7d") = "$\x7b" ++ ("cookie" ++ (":" ++ (N ++ "\x7d")))
        from rfl, hc, Option.map_some', hnode.2.2.2]
  · intro before value after hcoll hbefore
    rw [get, hcoll, lookup_of_first N value before after hbefore]
    rfl
  · intro habsent
    rw [get, lookup_of_absent N coll habsent]
    rfl
  · intro coll' hsame
    rw [get, get, ← lookup_filter N coll', ← lookup_filter N coll, hsame]

/-- Witness of C8: the request of `TestLoggerTemplate`: the query and form
fields render the user names, not the passwords stored next to them, and a
header the request lacks renders the empty string. -/
theorem C8_param_field_renders_stored_value_witness :
    (∀ ch ∈ "username".data, ch ≠ '}') ∧
    renderFormat "$\x7bquery:username\x7d" (contextOf testRequest) = some "apagano-param" ∧
    renderFormat "$\x7bform:username\x7d" (contextOf testRequest) = some "apagano-form" ∧
    renderFormat "$\x7bheader:X-Missing\x7d" (contextOf testRequest) = some "" :=
  ⟨by decide,
   ((C8_param_field_renders_stored_value (contextOf testRequest) "username").2.1
      (by decide)).1,
   ((C8_param_field_renders_stored_value (contextOf testRequest) "username").2.1
      (by decide)).2.1,
   ((C8_param_field_renders_stored_value (contextOf testRequest) "X-Missing").2.1
      (by decide)).2.2.1⟩

/-- C9: the rendered `remote_ip` field is the value of the `X-Real-IP` header
when that header is present and not empty; otherwise, when the
`X-Forwarded-For` header is present, the first comma-separated entry of its
value with the white space at its ends removed ("1.2.3.4, 5.6.6.7" gives
"1.2.3.4"); otherwise the peer address without its port. -/
theorem C9_remote_ip_precedence (ctx : RequestLogContext) :
    renderFormat "$\x7bremote_ip\x7d" ctx = some (Render [.Field .remote_ip none] ctx) ∧
    (∀ ip, lookup HeaderXRealIP ctx.request.headers = some ip → ip ≠ "" →
      Render [.Field .remote_ip none] ctx = ip) ∧
    ((lookup HeaderXRealIP ctx.request.headers = none ∨
        lookup HeaderXRealIP ctx.request.headers = some "") →
      (∀ forwarded, lookup HeaderXForwardedFor ctx.request.headers = some forwarded →
        Render [.Field .remote_ip none] ctx = trimSpace (firstEntry forwarded)) ∧
      (lookup HeaderXForwardedFor ctx.request.headers = none →
        Render [.Field .remote_ip none] ctx = stripPort ctx.request.remoteAddr)) ∧
    trimSpace (firstEntry "1.2.3.4, 5.6.6.7") = "1.2.3.4" ∧
    (∀ first rest : String, (∀ ch ∈ first.data, ch ≠ ',') →
      firstEntry (first ++ "," ++ rest) = first) ∧
    (∀ s : String, ∃ before after : List Char,
      s.data = before ++ (trimSpace s).data ++ after ∧
      (∀ ch ∈ before, ch.isWhitespace = true) ∧ (∀ ch ∈ after, ch.isWhitespace = true) ∧
      (∀ ch, (trimSpace s).data.head? = some ch → ch.isWhitespace = false) ∧
      (∀ ch, (trimSpace s).data.getLast? = some ch → ch.isWhitespace = false)) ∧
    (∀ host port : String, (∀ ch ∈ port.data, ch ≠ ':') →
      stripPort (host ++ ":" ++ port) = host) := by
  refine ⟨rfl, ?_, ?_, by decide, ?_, ?_, ?_⟩
  · intro ip hip hne
    simp [Render_single_field, Resolve, remoteIP, get, hip, hne]
  · intro hreal
    have hempty : get ctx.request.headers HeaderXRealIP = "" := by
      rcases hreal with h | h <;> simp [get, h]
    refine ⟨fun forwarded hf => ?_, fun hf => ?_⟩
    · simp [Render_single_field, Resolve, remoteIP, hempty, hf]
    · simp [Render_single_field, Resolve, remoteIP, hempty, hf]
  · intro first rest hfirst
    have ht : ((first ++ "," ++ rest).data).takeWhile (· ≠ ',') = first.data := by
      have hd : (first ++ "," ++ rest).data = first.data ++ ',' :: rest.data := by
        simp [String.data_append]
      rw [hd]
      exact takeWhile_until _ _ _ _ (fun a ha => by simpa using hfirst a ha) (by simp)
    simp only [firstEntry, ht]
  · intro s
    obtain ⟨before, after, hparts, hb, ha⟩ := trimSpace_parts s.data
    exact ⟨before, after, hparts, hb, ha, (trimSpace_ends s.data).1, (trimSpace_ends s.data).2⟩
  · intro host port hport
    have hd : (host ++ ":" ++ port).data.reverse = port.data.reverse ++ ':' :: host.data.reverse := by
      simp [String.data_append]
    have hdrop : (host ++ ":" ++ port).data.reverse.dropWhile (· ≠ ':')
        = ':' :: host.data.reverse := by
      rw [hd]
      exact dropWhile_until _ _ _ _
        (fun a ha => by simpa using hport a (List.mem_reverse.mp ha)) (by simp)
    simp only [stripPort, hdrop, List.reverse_reverse]

/-- Witness of C9: with only the forwarded-for header set, the first of its
two addresses is rendered; with the real-IP header set, that header is. -/
theorem C9_remote_ip_precedence_witness :
    lookup HeaderXRealIP (contextOf forwardedRequest).request.headers = none ∧
    lookup HeaderXForwardedFor (contextOf forwardedRequest).request.headers
      = some "1.2.3.4, 5.6.6.7" ∧
    Render [.Field .remote_ip none] (contextOf forwardedRequest) = "1.2.3.4" ∧
    Render [.Field .remote_ip none] (contextOf testRequest) = "127.0.0.1" :=
  ⟨rfl, rfl,
   ((C9_remote_ip_precedence (contextOf forwardedRequest)).2.2.1 (Or.inl rfl)).1
      "1.2.3.4, 5.6.6.7" rfl,
   (C9_remote_ip_precedence (contextOf testRequest)).2.1 "127.0.0.1" rfl (by decide)⟩

end logger
